import Mathlib

/-!
Shallow embedding of the surface-nets mesh extractor of
3d-sdf-surface-nets (src/main.js and src/distance-field.js).

Scalar samples are modelled by rationals (the JavaScript code stores
32-bit floats; the algorithmic structure is identical).  The external
gl-matrix call vec3.normalize, an irrational operation on the vertex
normal, is abstracted as an arbitrary function parameter nrm: no claim
depends on its value.  The sparse JavaScript array gridIndices, read at
possibly negative positions, is modelled by an association list keyed by
Int, where an absent key plays the role of the undefined value.
-/

namespace SurfaceNets

/-- A distance field: grid dimensions and the flat sample array,
indexed by x + y*width + z*width*height (src/main.js lines 3-11). -/
structure Field where
  width : ℕ
  height : ℕ
  depth : ℕ
  data : List ℚ
deriving Repr, DecidableEq

/-- The fixed list of the 12 cube edges as corner-index pairs
(src/main.js lines 53-66, cubeEdgeCornerIndices). -/
def cubeEdgeCornerIndices : List (ℕ × ℕ) :=
  [(0, 1), (0, 2), (1, 3), (2, 3), (0, 4), (1, 5), (2, 6), (3, 7),
   (4, 5), (4, 6), (5, 7), (6, 7)]

/-- Entry of the precomputed edgeBitFields table (src/main.js lines
68-82): for a corner-sign pattern, the 12-bit mask of edges whose two
endpoint corners have differing membership in the pattern. -/
def edgeBitField (cornerBits : ℕ) : ℕ :=
  (List.range cubeEdgeCornerIndices.length).foldl
    (fun field j =>
      let c := cubeEdgeCornerIndices.getD j (0, 0)
      let cornerBitsA := 1 <<< c.1
      let cornerBitsB := 1 <<< c.2
      let isCornerInVolumeA := cornerBits &&& cornerBitsA ≠ 0
      let isCornerInVolumeB := cornerBits &&& cornerBitsB ≠ 0
      field ||| ((if isCornerInVolumeA ≠ isCornerInVolumeB then 1 else 0) <<< j))
    0

/-- One step of DistanceField.drawDistanceFunction (src/main.js lines
13-25): walk the sample list carrying the linear index, replacing each
sample by the minimum of itself and the function evaluated at the voxel
center. -/
def drawAux (f : ℚ → ℚ → ℚ → ℚ) (width height : ℕ) : ℕ → List ℚ → List ℚ
  | _, [] => []
  | i, v :: rest =>
      min v (f ((i % width : ℕ) + 1 / 2) ((i / width % height : ℕ) + 1 / 2)
        ((i / width / height : ℕ) + 1 / 2)) :: drawAux f width height (i + 1) rest

/-- DistanceField.drawDistanceFunction (src/main.js lines 13-25). -/
def drawDistanceFunction (df : Field) (f : ℚ → ℚ → ℚ → ℚ) : Field :=
  { df with data := drawAux f df.width df.height 0 df.data }

/-- The 8-bit corner-sign mask of the dual cell with base corner
(x, y, z) (src/main.js lines 102-116): bit j is set iff the sample at
corner j is strictly positive (outside). -/
def cornerMask (df : Field) (x y z : ℕ) : ℕ :=
  (List.range 8).foldl
    (fun mask j =>
      let u := j % 2
      let v := j / 2 % 2
      let w := j / 2 / 2
      let k := x + u + (y + v) * df.width + (z + w) * df.width * df.height
      if 0 < df.data.getD k 0 then mask ||| (1 <<< j) else mask)
    0

/-- Per-edge interpolation contribution of crossing edge j, exactly the
three accumulated summands of src/main.js lines 131-155. -/
def edgeContribution (df : Field) (x y z j : ℕ) : ℚ × ℚ × ℚ :=
  let c0 := (cubeEdgeCornerIndices.getD j (0, 0)).1
  let c0x := c0 % 2
  let c0y := c0 / 2 % 2
  let c0z := c0 / 2 / 2
  let k0 := x + c0x + (y + c0y) * df.width + (z + c0z) * df.width * df.height
  let d0 := df.data.getD k0 0
  let c1 := (cubeEdgeCornerIndices.getD j (0, 0)).2
  let c1x := c1 % 2
  let c1y := c1 / 2 % 2
  let c1z := c1 / 2 / 2
  let k1 := x + c1x + (y + c1y) * df.width + (z + c1z) * df.width * df.height
  let d1 := df.data.getD k1 0
  ((c0x : ℚ) + (((c1x : ℚ) - (c0x : ℚ)) / (d1 - d0)) * (0 - d0),
   (c0y : ℚ) + (((c1y : ℚ) - (c0y : ℚ)) / (d1 - d0)) * (0 - d0),
   (c0z : ℚ) + (((c1z : ℚ) - (c0z : ℚ)) / (d1 - d0)) * (0 - d0))

/-- The crossing-edge loop of src/main.js lines 123-156: returns
(edgeCount, dx, dy, dz) where the last three are the accumulated sums
over the set bits of the edge mask. -/
def edgeScan (df : Field) (x y z edges : ℕ) : ℕ × ℚ × ℚ × ℚ :=
  (List.range cubeEdgeCornerIndices.length).foldl
    (fun acc j =>
      if edges &&& (1 <<< j) = 0 then acc
      else
        (acc.1 + 1,
         acc.2.1 + (edgeContribution df x y z j).1,
         acc.2.2.1 + (edgeContribution df x y z j).2.1,
         acc.2.2.2 + (edgeContribution df x y z j).2.2))
    (0, 0, 0, 0)

/-- The dual vertex position of a cell (src/main.js lines 162-171):
averaged accumulated offsets plus the base coordinate plus the fixed
half-voxel center shift. -/
def cellVertexPosition (df : Field) (x y z edges : ℕ) : ℚ × ℚ × ℚ :=
  let s := edgeScan df x y z edges
  ((x : ℚ) + 1 / 2 + s.2.1 / (s.1 : ℚ),
   (y : ℚ) + 1 / 2 + s.2.2.1 / (s.1 : ℚ),
   (z : ℚ) + 1 / 2 + s.2.2.2 / (s.1 : ℚ))

/-- The unnormalized finite-difference gradient at a cell (src/main.js
lines 177-201); the subsequent external vec3.normalize is abstracted by
the extraction parameter nrm. -/
def cellNormal (df : Field) (x y z : ℕ) : ℚ × ℚ × ℚ :=
  let j := x + y * df.width + z * df.width * df.height
  let d0 := df.data.getD j 0
  let d1 := df.data.getD (j + 1) 0
  let d2 := df.data.getD (j + df.width) 0
  let d3 := df.data.getD (j + 1 + df.width) 0
  let d4 := df.data.getD (j + df.width * df.height) 0
  let d5 := df.data.getD (j + 1 + df.width * df.height) 0
  let d6 := df.data.getD (j + df.width + df.width * df.height) 0
  let d7 := df.data.getD (j + 1 + df.width + df.width * df.height) 0
  ((d1 - d0 + d3 - d2 + d5 - d4 + d7 - d6) / 4,
   (d2 - d0 + d3 - d1 + d6 - d4 + d7 - d5) / 4,
   (d4 - d0 + d5 - d1 + d6 - d2 + d7 - d3) / 4)

/-- A quad of four neighbor-cell vertex lookups, each possibly absent
(the JavaScript undefined). -/
structure Quad where
  q0 : Option ℕ
  q1 : Option ℕ
  q2 : Option ℕ
  q3 : Option ℕ
deriving Repr, DecidableEq

/-- The two triangles pushed for one quad (src/main.js lines 245-265):
winding chosen by bit 0 of the current cube's corner mask. -/
def emitQuad (mask : ℕ) (q : Quad) : List (Option ℕ) :=
  if mask &&& 1 = 0 then [q.q0, q.q1, q.q3, q.q0, q.q3, q.q2]
  else [q.q0, q.q3, q.q1, q.q0, q.q2, q.q3]

/-- Lookup in the sparse gridIndices array (a JavaScript array read at
a possibly negative or unset position yields undefined, here none). -/
def lookupGI (gi : List (Int × ℕ)) (k : Int) : Option ℕ :=
  List.lookup k gi

/-- geometryElements (src/main.js line 84). -/
def geometryElements : ℕ := 6

/-- The mutable state of the extraction loop: the flat vertex list, the
sparse cell-to-vertex-index table and the raw pushed index values. -/
structure ExtractState where
  vertices : List ℚ
  gridIndices : List (Int × ℕ)
  rawIndices : List (Option ℕ)
deriving Repr, DecidableEq

/-- One iteration of the main extraction loop over dual cells
(src/main.js lines 97-266). -/
def processCell (nrm : ℚ × ℚ × ℚ → ℚ × ℚ × ℚ) (df : Field) (gw gh : ℕ)
    (st : ExtractState) (i : ℕ) : ExtractState :=
  let x := i % gw
  let y := i / gw % gh
  let z := i / gw / gh
  let mask := cornerMask df x y z
  if mask = 255 then st
  else
    let edges := edgeBitField mask
    let s := edgeScan df x y z edges
    if s.1 = 0 then st
    else
      let vi := st.vertices.length / geometryElements
      let gi := ((i : Int), vi) :: st.gridIndices
      let p := cellVertexPosition df x y z edges
      let n := nrm (cellNormal df x y z)
      let quads :=
        (if edges &&& 1 = 0 then [] else
          [Quad.mk (lookupGI gi ((i : Int) - gw))
            (lookupGI gi ((i : Int) - gw - gw * gh))
            (lookupGI gi (i : Int))
            (lookupGI gi ((i : Int) - gw * gh))]) ++
        (if edges &&& 2 = 0 then [] else
          [Quad.mk (lookupGI gi (i : Int))
            (lookupGI gi ((i : Int) - gw * gh))
            (lookupGI gi ((i : Int) - 1))
            (lookupGI gi ((i : Int) - 1 - gw * gh))]) ++
        (if edges &&& 16 = 0 then [] else
          [Quad.mk (lookupGI gi ((i : Int) - 1 - gw))
            (lookupGI gi ((i : Int) - gw))
            (lookupGI gi ((i : Int) - 1))
            (lookupGI gi (i : Int))])
      { vertices := st.vertices ++ [p.1, p.2.1, p.2.2, n.1, n.2.1, n.2.2],
        gridIndices := gi,
        rawIndices := st.rawIndices ++ quads.foldl (fun acc q => acc ++ emitQuad mask q) [] }

/-- The full extraction pass before the final typed-array conversions
(src/main.js lines 87-266). -/
def rawGeometryData (nrm : ℚ × ℚ × ℚ → ℚ × ℚ × ℚ) (df : Field) : ExtractState :=
  let gw := df.width - 1
  let gh := df.height - 1
  let gd := df.depth - 1
  (List.range (gw * gh * gd)).foldl (processCell nrm df gw gh) ⟨[], [], []⟩

/-- Conversion of one pushed index value by the Uint16Array constructor
(src/main.js line 270): a number is reduced modulo 2^16, the undefined
value converts through NaN to 0. -/
def toUint16 (o : Option ℕ) : ℕ :=
  o.getD 0 % 65536

/-- The extracted mesh: interleaved vertex data and the 16-bit index
buffer. -/
structure Geometry where
  vertices : List ℚ
  indices : List ℕ
deriving Repr, DecidableEq

/-- getGeometryData (src/main.js lines 87-272): the raw pass followed by
the Uint16Array conversion of the pushed indices. -/
def getGeometryData (nrm : ℚ × ℚ × ℚ → ℚ × ℚ × ℚ) (df : Field) : Geometry :=
  let st := rawGeometryData nrm df
  ⟨st.vertices, st.rawIndices.map toUint16⟩

/-- The result of the DistanceField constructor, whose dimensions are
arbitrary JavaScript numbers (here integers). -/
structure JSField where
  width : Int
  height : Int
  depth : Int
  data : List ℚ
deriving Repr, DecidableEq

/-- The DistanceField constructor (src/main.js lines 4-11).  It performs
no validation: height and depth fall back to width when the argument is
absent or 0 (JavaScript falsiness); the Float32Array allocation throws
only for a negative length, modelled as none; the Float32 Infinity fill
value has no rational counterpart and is abstracted as the parameter
inf. -/
def distanceFieldConstructor (inf : ℚ) (width : Int)
    (heightArg depthArg : Option Int) : Option JSField :=
  let height := match heightArg with
    | none => width
    | some h => if h = 0 then width else h
  let depth := match depthArg with
    | none => width
    | some d => if d = 0 then width else d
  let len := width * height * depth
  if len < 0 then none
  else some ⟨width, height, depth, List.replicate len.toNat inf⟩

/-- Modelled from the spec: the interpolated local point of section 4.3
step 4, the zero-crossing parameter t = (0 - d0)/(d1 - d0) applied as
c0 + t * (c1 - c0) componentwise, to be compared with the accumulation
the code performs. -/
def interpolatedLocalPoint (df : Field) (x y z j : ℕ) : ℚ × ℚ × ℚ :=
  let e := cubeEdgeCornerIndices.getD j (0, 0)
  let c0 := e.1
  let c1 := e.2
  let d0 := df.data.getD
    (x + c0 % 2 + (y + c0 / 2 % 2) * df.width + (z + c0 / 2 / 2) * df.width * df.height) 0
  let d1 := df.data.getD
    (x + c1 % 2 + (y + c1 / 2 % 2) * df.width + (z + c1 / 2 / 2) * df.width * df.height) 0
  let t := (0 - d0) / (d1 - d0)
  (((c0 % 2 : ℕ) : ℚ) + t * (((c1 % 2 : ℕ) : ℚ) - ((c0 % 2 : ℕ) : ℚ)),
   ((c0 / 2 % 2 : ℕ) : ℚ) + t * (((c1 / 2 % 2 : ℕ) : ℚ) - ((c0 / 2 % 2 : ℕ) : ℚ)),
   ((c0 / 2 / 2 : ℕ) : ℚ) + t * (((c1 / 2 / 2 : ℕ) : ℚ) - ((c0 / 2 / 2 : ℕ) : ℚ)))

/-- The list of crossing edges of an edge mask, in loop order. -/
def crossingEdges (edges : ℕ) : List ℕ :=
  (List.range cubeEdgeCornerIndices.length).filter (fun j => edges &&& (1 <<< j) != 0)

/-- A 2x2x2 field whose corner (0,0,0) is inside and whose seven other
corners are outside: its single dual cell emits a vertex and three
faces whose neighbor cells lie outside the dual grid. -/
def fieldCornerInside : Field := ⟨2, 2, 2, [-1, 1, 1, 1, 1, 1, 1, 1]⟩

/-- A 2x2x2 field with every sample +1 (fully outside). -/
def fieldAllOutside : Field := ⟨2, 2, 2, List.replicate 8 1⟩

/-- A 2x2x2 field with every sample -1 (fully inside). -/
def fieldAllInside : Field := ⟨2, 2, 2, List.replicate 8 (-1)⟩

/-! ## Helper lemmas -/

lemma foldl_fixed {α β : Type} (f : α → β → α) (l : List β) (init : α)
    (h : ∀ acc b, b ∈ l → f acc b = acc) : l.foldl f init = init := by
  induction l generalizing init with
  | nil => rfl
  | cons a t ih =>
      rw [List.foldl_cons, h init a (List.mem_cons_self a t)]
      exact ih init fun acc b hb => h acc b (List.mem_cons_of_mem a hb)

lemma foldl_if_filter {α : Type} (edges : ℕ) (g : α → ℕ → α) (l : List ℕ) (init : α) :
    l.foldl (fun acc j => if edges &&& (1 <<< j) = 0 then acc else g acc j) init
      = (l.filter (fun j => edges &&& (1 <<< j) != 0)).foldl g init := by
  induction l generalizing init with
  | nil => rfl
  | cons a t ih =>
      by_cases h : edges &&& (1 <<< a) = 0
      · simp only [List.foldl_cons, List.filter_cons, h, if_pos, bne_self_eq_false]
        simpa [h] using ih init
      · simp only [List.foldl_cons, List.filter_cons, h, if_neg]
        have hb : (edges &&& (1 <<< a) != 0) = true := by simpa using h
        simp only [hb, if_pos, List.foldl_cons]
        exact ih (g init a)

lemma foldl_accum (f1 f2 f3 : ℕ → ℚ) (l : List ℕ) (c : ℕ) (s1 s2 s3 : ℚ) :
    l.foldl (fun acc j =>
        (acc.1 + 1, acc.2.1 + f1 j, acc.2.2.1 + f2 j, acc.2.2.2 + f3 j)) (c, s1, s2, s3)
      = (c + l.length, s1 + (l.map f1).sum, s2 + (l.map f2).sum, s3 + (l.map f3).sum) := by
  induction l generalizing c s1 s2 s3 with
  | nil => simp
  | cons a t ih =>
      rw [List.foldl_cons, ih]
      refine Prod.ext ?_ (Prod.ext ?_ (Prod.ext ?_ ?_))
      · simp; omega
      · simp; ring
      · simp; ring
      · simp; ring

lemma edgeScan_eq (df : Field) (x y z edges : ℕ) :
    edgeScan df x y z edges =
      ((crossingEdges edges).length,
       ((crossingEdges edges).map (fun j => (edgeContribution df x y z j).1)).sum,
       ((crossingEdges edges).map (fun j => (edgeContribution df x y z j).2.1)).sum,
       ((crossingEdges edges).map (fun j => (edgeContribution df x y z j).2.2)).sum) := by
  unfold edgeScan crossingEdges
  rw [foldl_if_filter]
  rw [foldl_accum]
  simp

lemma edgeContribution_eq_interpolatedLocalPoint (df : Field) (x y z j : ℕ) :
    edgeContribution df x y z j = interpolatedLocalPoint df x y z j := by
  unfold edgeContribution interpolatedLocalPoint
  refine Prod.ext ?_ (Prod.ext ?_ ?_) <;> · simp only []; ring

lemma index_bound {a b c W H D : ℕ} (ha : a < W) (hb : b < H) (hc : c < D) :
    a + b * W + c * W * H < W * H * D := by
  have h1 : a + b * W < H * W := by
    calc a + b * W < W + b * W := Nat.add_lt_add_right ha _
    _ = (b + 1) * W := by ring
    _ ≤ H * W := Nat.mul_le_mul_right W (Nat.succ_le_of_lt hb)
  calc a + b * W + c * W * H < H * W + c * W * H := Nat.add_lt_add_right h1 _
  _ = (c + 1) * (W * H) := by ring
  _ ≤ D * (W * H) := Nat.mul_le_mul_right (W * H) (Nat.succ_le_of_lt hc)
  _ = W * H * D := by ring

lemma decomp_mod {x y z w h : ℕ} (hx : x < w) : (x + y * w + z * w * h) % w = x := by
  have e : x + y * w + z * w * h = x + w * (y + z * h) := by ring
  rw [e, Nat.add_mul_mod_self_left, Nat.mod_eq_of_lt hx]

lemma decomp_div {x y z w h : ℕ} (hx : x < w) :
    (x + y * w + z * w * h) / w = y + z * h := by
  have e : x + y * w + z * w * h = x + w * (y + z * h) := by ring
  rw [e, Nat.add_mul_div_left x (y + z * h) (Nat.pos_of_ne_zero (by omega)),
    Nat.div_eq_of_lt hx]
  omega

lemma decomp_div_mod {x y z w h : ℕ} (hx : x < w) (hy : y < h) :
    (x + y * w + z * w * h) / w % h = y := by
  rw [decomp_div hx]
  have e : y + z * h = y + h * z := by ring
  rw [e, Nat.add_mul_mod_self_left, Nat.mod_eq_of_lt hy]

lemma decomp_div_div {x y z w h : ℕ} (hx : x < w) (hy : y < h) :
    (x + y * w + z * w * h) / w / h = z := by
  rw [decomp_div hx]
  have e : y + z * h = y + h * z := by ring
  rw [e, Nat.add_mul_div_left y z (by omega), Nat.div_eq_of_lt hy]
  omega

lemma drawAux_idem (f : ℚ → ℚ → ℚ → ℚ) (w h : ℕ) :
    ∀ (l : List ℚ) (i0 : ℕ),
      drawAux f w h i0 (drawAux f w h i0 l) = drawAux f w h i0 l
  | [], _ => rfl
  | v :: rest, i0 => by
      simp only [drawAux, drawAux_idem f w h rest (i0 + 1)]
      rw [min_assoc, min_self]

lemma drawAux_getD (f : ℚ → ℚ → ℚ → ℚ) (w h : ℕ) :
    ∀ (l : List ℚ) (i0 n : ℕ), n < l.length →
      (drawAux f w h i0 l).getD n 0 =
        min (l.getD n 0)
          (f (((i0 + n) % w : ℕ) + 1 / 2) (((i0 + n) / w % h : ℕ) + 1 / 2)
            (((i0 + n) / w / h : ℕ) + 1 / 2))
  | [], _, n, hn => absurd hn (by simp)
  | v :: rest, i0, 0, _ => by simp [drawAux]
  | v :: rest, i0, n + 1, hn => by
      have ih := drawAux_getD f w h rest (i0 + 1) n (by simpa using hn)
      simp only [drawAux, List.getD_cons_succ, ih]
      rw [show i0 + 1 + n = i0 + (n + 1) by omega]

lemma getD_pos_of_mem (df : Field) (h : ∀ q ∈ df.data, 0 < q) (k : ℕ)
    (hk : k < df.data.length) : 0 < df.data.getD k 0 := by
  rw [List.getD_eq_getElem df.data 0 hk]
  exact h _ (List.getElem_mem hk)

lemma cornerMask_eq_zero (df : Field) (x y z : ℕ)
    (h : ∀ q ∈ df.data, q ≤ 0) : cornerMask df x y z = 0 := by
  unfold cornerMask
  apply foldl_fixed
  intro acc j _
  have hk : ¬ 0 < df.data.getD
      (x + j % 2 + (y + j / 2 % 2) * df.width + (z + j / 2 / 2) * df.width * df.height) 0 := by
    rcases Nat.lt_or_ge
        (x + j % 2 + (y + j / 2 % 2) * df.width + (z + j / 2 / 2) * df.width * df.height)
        df.data.length with hlt | hge
    · rw [List.getD_eq_getElem df.data 0 hlt]
      exact not_lt.mpr (h _ (List.getElem_mem hlt))
    · rw [List.getD_eq_default df.data 0 hge]
      exact lt_irrefl 0
  simp only []
  rw [if_neg hk]

lemma cornerMask_eq_255 (df : Field) (x y z : ℕ)
    (h : ∀ j ∈ List.range 8,
      0 < df.data.getD
        (x + j % 2 + (y + j / 2 % 2) * df.width + (z + j / 2 / 2) * df.width * df.height) 0) :
    cornerMask df x y z = 255 := by
  unfold cornerMask
  rw [show List.range 8 = [0, 1, 2, 3, 4, 5, 6, 7] from rfl]
  simp only [List.foldl_cons, List.foldl_nil]
  rw [if_pos (h 0 (by decide)), if_pos (h 1 (by decide)), if_pos (h 2 (by decide)),
    if_pos (h 3 (by decide)), if_pos (h 4 (by decide)), if_pos (h 5 (by decide)),
    if_pos (h 6 (by decide)), if_pos (h 7 (by decide))]
  decide

lemma processCell_id_of_nonpos (nrm : ℚ × ℚ × ℚ → ℚ × ℚ × ℚ) (df : Field)
    (h : ∀ q ∈ df.data, q ≤ 0) (gw gh : ℕ) (st : ExtractState) (i : ℕ) :
    processCell nrm df gw gh st i = st := by
  have hmask := cornerMask_eq_zero df (i % gw) (i / gw % gh) (i / gw / gh) h
  simp only [processCell]
  rw [hmask]
  rw [show edgeBitField 0 = 0 from rfl]
  rw [show ∀ a b c, edgeScan df a b c 0 = (0, 0, 0, 0) from fun a b c => rfl]
  norm_num

lemma processCell_id_of_pos (nrm : ℚ × ℚ × ℚ → ℚ × ℚ × ℚ) (df : Field)
    (hpos : ∀ q ∈ df.data, 0 < q)
    (hlen : df.data.length = df.width * df.height * df.depth)
    (st : ExtractState) (i : ℕ)
    (hi : i < (df.width - 1) * ((df.height - 1) * (df.depth - 1))) :
    processCell nrm df (df.width - 1) (df.height - 1) st i = st := by
  have hgw : 0 < df.width - 1 := by
    rcases Nat.eq_zero_or_pos (df.width - 1) with h0 | h0
    · rw [h0] at hi; omega
    · exact h0
  have hgh : 0 < df.height - 1 := by
    rcases Nat.eq_zero_or_pos (df.height - 1) with h0 | h0
    · rw [h0] at hi; simp at hi
    · exact h0
  have hgd : 0 < df.depth - 1 := by
    rcases Nat.eq_zero_or_pos (df.depth - 1) with h0 | h0
    · rw [h0] at hi; simp at hi
    · exact h0
  have hx : i % (df.width - 1) < df.width - 1 := Nat.mod_lt _ hgw
  have hy : i / (df.width - 1) % (df.height - 1) < df.height - 1 := Nat.mod_lt _ hgh
  have hz : i / (df.width - 1) / (df.height - 1) < df.depth - 1 := by
    rw [Nat.div_div_eq_div_mul]
    rw [Nat.div_lt_iff_lt_mul (Nat.mul_pos hgw hgh)]
    calc i < (df.width - 1) * ((df.height - 1) * (df.depth - 1)) := hi
    _ = (df.depth - 1) * ((df.width - 1) * (df.height - 1)) := by ring
  have hmask : cornerMask df (i % (df.width - 1)) (i / (df.width - 1) % (df.height - 1))
      (i / (df.width - 1) / (df.height - 1)) = 255 := by
    apply cornerMask_eq_255
    intro j hj
    apply getD_pos_of_mem df hpos
    rw [hlen]
    have hj2 : j % 2 ≤ 1 := by omega
    have hjd : j / 2 % 2 ≤ 1 := by omega
    have hjdd : j / 2 / 2 ≤ 1 := by
      rw [List.mem_range] at hj; omega
    apply index_bound
    · omega
    · omega
    · omega
  simp only [processCell]
  rw [hmask]
  simp

/-! ## Claim theorems -/

set_option maxRecDepth 10000

/-- C2: for every 8-bit corner pattern b and edge index j with corner
pair (c0, c1) from the fixed edge list, bit j of the edge table entry
for b is set iff bit c0 of b differs from bit c1 of b; in particular the
entries for 0x00 and 0xFF are 0. -/
theorem edgeTable_crossing_iff :
    (∀ b < 256, ∀ j < 12,
      (edgeBitField b).testBit j =
        (b.testBit (cubeEdgeCornerIndices.getD j (0, 0)).1 !=
         b.testBit (cubeEdgeCornerIndices.getD j (0, 0)).2))
    ∧ edgeBitField 0 = 0 ∧ edgeBitField 255 = 0 := by
  decide

/-- Witness for C2 at the concrete pattern b = 1, edge j = 0. -/
theorem edgeTable_crossing_iff_witness :
    (edgeBitField 1).testBit 0 =
      ((1 : ℕ).testBit (cubeEdgeCornerIndices.getD 0 (0, 0)).1 !=
       (1 : ℕ).testBit (cubeEdgeCornerIndices.getD 0 (0, 0)).2) :=
  edgeTable_crossing_iff.1 1 (by decide) 0 (by decide)

/-- C5: the two triangles of an emitted quad (v0, v1, v2, v3) are chosen
by bit 0 of the current cube's corner mask: (v0,v3,v1),(v0,v2,v3) when
corner 0 is outside (bit set), (v0,v1,v3),(v0,v3,v2) when inside. -/
theorem quad_winding_by_corner0 (mask : ℕ) (q : Quad) :
    (mask.testBit 0 = true →
      emitQuad mask q = [q.q0, q.q3, q.q1, q.q0, q.q2, q.q3])
    ∧ (mask.testBit 0 = false →
      emitQuad mask q = [q.q0, q.q1, q.q3, q.q0, q.q3, q.q2]) := by
  unfold emitQuad
  simp only [Nat.and_one_is_mod, Nat.testBit_zero, decide_eq_true_eq,
    decide_eq_false_iff_not]
  constructor
  · intro h
    rw [if_neg (by omega)]
  · intro h
    rw [if_pos (by omega)]

/-- Witness for C5 at mask = 1 and mask = 0 on a concrete quad. -/
theorem quad_winding_by_corner0_witness :
    emitQuad 1 (Quad.mk (some 4) (some 5) (some 6) (some 7)) =
      [some 4, some 7, some 5, some 4, some 6, some 7] :=
  (quad_winding_by_corner0 1 (Quad.mk (some 4) (some 5) (some 6) (some 7))).1 (by decide)

/-- C7: mesh extraction is deterministic: two runs on identical Fields
(same dimensions, same samples) produce identical vertex and index
buffers. -/
theorem getGeometryData_deterministic (nrm : ℚ × ℚ × ℚ → ℚ × ℚ × ℚ)
    (df1 df2 : Field) (hw : df1.width = df2.width)
    (hh : df1.height = df2.height) (hd : df1.depth = df2.depth)
    (hdata : df1.data = df2.data) :
    getGeometryData nrm df1 = getGeometryData nrm df2 := by
  cases df1
  cases df2
  dsimp only at hw hh hd hdata
  subst hw
  subst hh
  subst hd
  subst hdata
  rfl

/-- Witness for C7 at a concrete field. -/
theorem getGeometryData_deterministic_witness :
    getGeometryData (fun v => v) fieldCornerInside =
      getGeometryData (fun v => v) fieldCornerInside :=
  getGeometryData_deterministic (fun v => v) fieldCornerInside fieldCornerInside
    rfl rfl rfl rfl

/-- C8: drawDistanceFunction applied twice with the same pure function
leaves the samples exactly as after the first application. -/
theorem drawDistanceFunction_idempotent (df : Field) (f : ℚ → ℚ → ℚ → ℚ) :
    drawDistanceFunction (drawDistanceFunction df f) f = drawDistanceFunction df f := by
  unfold drawDistanceFunction
  congr 1
  exact drawAux_idem f df.width df.height df.data 0

/-- C9 (code evaluated at the failing input): the DistanceField
constructor performs no validation; with width 0 it synchronously
returns a usable instance with empty sample data instead of failing
with a configuration error. -/
theorem constructor_accepts_zero_dims (inf : ℚ) :
    distanceFieldConstructor inf 0 none none = some ⟨0, 0, 0, []⟩ := rfl

/-- C10: the returned index buffer is the raw pushed index list passed
through the Uint16Array conversion: a pushed vertex index is reduced
modulo 2^16, a missing neighbor-cell lookup (undefined) is stored as
0. -/
theorem indices_are_uint16 (nrm : ℚ × ℚ × ℚ → ℚ × ℚ × ℚ) (df : Field) :
    (getGeometryData nrm df).indices = (rawGeometryData nrm df).rawIndices.map toUint16
      ∧ (∀ n : ℕ, toUint16 (some n) = n % 2 ^ 16)
      ∧ toUint16 none = 0 :=
  ⟨rfl, fun _ => rfl, rfl⟩

/-- C3: drawDistanceFunction(f) replaces the sample at index
x + y*width + z*width*height by min(previous value, f(x+0.5, y+0.5,
z+0.5)); in particular no sample's value increases. -/
theorem drawDistanceFunction_min_update (df : Field) (f : ℚ → ℚ → ℚ → ℚ)
    (x y z : ℕ) (hx : x < df.width) (hy : y < df.height) (hz : z < df.depth)
    (hlen : df.data.length = df.width * df.height * df.depth) :
    (drawDistanceFunction df f).data.getD (x + y * df.width + z * df.width * df.height) 0
        = min (df.data.getD (x + y * df.width + z * df.width * df.height) 0)
            (f ((x : ℚ) + 1 / 2) ((y : ℚ) + 1 / 2) ((z : ℚ) + 1 / 2))
      ∧ (drawDistanceFunction df f).data.getD (x + y * df.width + z * df.width * df.height) 0
          ≤ df.data.getD (x + y * df.width + z * df.width * df.height) 0 := by
  have hi : x + y * df.width + z * df.width * df.height < df.data.length := by
    rw [hlen]
    exact index_bound hx hy hz
  have h1 := drawAux_getD f df.width df.height df.data 0 _ hi
  simp only [Nat.zero_add] at h1
  rw [decomp_mod hx, decomp_div_mod hx hy, decomp_div_div hx hy] at h1
  have h2 : (drawDistanceFunction df f).data = drawAux f df.width df.height 0 df.data := rfl
  rw [h2, h1]
  exact ⟨rfl, min_le_left _ _⟩

/-- Witness for C3 at a 1x1x1 field with sample 5 and the constant
function 3. -/
theorem drawDistanceFunction_min_update_witness :
    (drawDistanceFunction ⟨1, 1, 1, [5]⟩ (fun _ _ _ => 3)).data.getD 0 0 = min 5 3
      ∧ (drawDistanceFunction ⟨1, 1, 1, [5]⟩ (fun _ _ _ => 3)).data.getD 0 0 ≤ 5 :=
  drawDistanceFunction_min_update ⟨1, 1, 1, [5]⟩ (fun _ _ _ => 3) 0 0 0
    (by decide) (by decide) (by decide) (by decide)

/-- C4: for a cell with at least one crossing edge, the dual vertex
position is the cell base coordinate plus the fixed (0.5, 0.5, 0.5)
center shift plus the arithmetic mean over the crossing edges of the
spec's interpolated local points c0 + t*(c1 - c0), t = (0-d0)/(d1-d0). -/
theorem vertex_placement_spec (df : Field) (x y z edges : ℕ)
    (_h : crossingEdges edges ≠ []) :
    cellVertexPosition df x y z edges =
      ((x : ℚ) + 1 / 2 +
        ((crossingEdges edges).map (fun j => (interpolatedLocalPoint df x y z j).1)).sum
          / ((crossingEdges edges).length : ℚ),
       (y : ℚ) + 1 / 2 +
        ((crossingEdges edges).map (fun j => (interpolatedLocalPoint df x y z j).2.1)).sum
          / ((crossingEdges edges).length : ℚ),
       (z : ℚ) + 1 / 2 +
        ((crossingEdges edges).map (fun j => (interpolatedLocalPoint df x y z j).2.2)).sum
          / ((crossingEdges edges).length : ℚ)) := by
  simp only [cellVertexPosition, edgeScan_eq, edgeContribution_eq_interpolatedLocalPoint]

/-- Witness for C4 on the 2x2x2 corner field, whose single cell has the
three crossing edges of the mask 19. -/
theorem vertex_placement_spec_witness :
    cellVertexPosition fieldCornerInside 0 0 0 19 = (2 / 3, 2 / 3, 2 / 3) := by
  have hc : crossingEdges 19 = [0, 1, 4] := by decide
  rw [vertex_placement_spec fieldCornerInside 0 0 0 19 (by decide), hc]
  norm_num [interpolatedLocalPoint, fieldCornerInside, cubeEdgeCornerIndices, List.getD]

/-- C6: a Field whose samples are all strictly positive, and a Field
whose samples are all non-positive, both extract to an empty mesh:
zero vertices and zero indices. -/
theorem uniform_field_empty_mesh (nrm : ℚ × ℚ × ℚ → ℚ × ℚ × ℚ) (df : Field)
    (hlen : df.data.length = df.width * df.height * df.depth)
    (h : (∀ q ∈ df.data, 0 < q) ∨ (∀ q ∈ df.data, q ≤ 0)) :
    (getGeometryData nrm df).vertices = [] ∧ (getGeometryData nrm df).indices = [] := by
  have hraw : rawGeometryData nrm df = ⟨[], [], []⟩ := by
    unfold rawGeometryData
    apply foldl_fixed
    intro st i hi
    rw [List.mem_range] at hi
    rcases h with hp | hn
    · exact processCell_id_of_pos nrm df hp hlen st i (by rw [← Nat.mul_assoc]; exact hi)
    · exact processCell_id_of_nonpos nrm df hn _ _ st i
  simp [getGeometryData, hraw]

/-- Witness for C6 on the all-outside (+1) and all-inside (-1) 2x2x2
fields. -/
theorem uniform_field_empty_mesh_witness :
    ((getGeometryData (fun v => v) fieldAllOutside).vertices = []
        ∧ (getGeometryData (fun v => v) fieldAllOutside).indices = [])
      ∧ ((getGeometryData (fun v => v) fieldAllInside).vertices = []
        ∧ (getGeometryData (fun v => v) fieldAllInside).indices = []) :=
  ⟨uniform_field_empty_mesh (fun v => v) fieldAllOutside (by decide) (Or.inl (by decide)),
   uniform_field_empty_mesh (fun v => v) fieldAllInside (by decide) (Or.inr (by decide))⟩

/-- C1 (code evaluated at the failing input): on a 2x2x2 field whose
only dual cell emits a vertex, the three faces around that cell's
corner-0 edges reference neighbor cells outside the dual grid; the code
does not drop them but pushes the absent lookups (13 of the 18 raw
index entries are undefined), which the Uint16Array conversion then
stores as index 0. -/
theorem boundary_faces_emitted_not_dropped (nrm : ℚ × ℚ × ℚ → ℚ × ℚ × ℚ) :
    (rawGeometryData nrm fieldCornerInside).rawIndices =
      [none, none, none, none, none, some 0, some 0, none, none, some 0,
       none, none, none, none, some 0, none, some 0, none]
    ∧ (getGeometryData nrm fieldCornerInside).vertices.length = 6
    ∧ (getGeometryData nrm fieldCornerInside).indices = List.replicate 18 0 :=
  ⟨rfl, rfl, rfl⟩

end SurfaceNets
